import Mathlib

/-
  Verification of the hot-reload subsystem of the VulkanTemplate repository:
  the FileWatcher registry and polling loop (base/utilities/FileWatcher.hpp),
  the reloadable Pipeline wrapper (base/wrappers/Pipeline.hpp), the reloadable
  Model (base/loaders/glTF.h) and the per-frame reload coordinator
  (src/main.cpp, Application::render / Application's onFileChanged handler).

  Conventions of the shallow embedding:
  * pointers are opaque numeric identities (Nat);
  * std::filesystem::file_time_type is an integer tick count (Int);
  * the filesystem is an explicit environment passed to each operation;
  * a failed C assert() terminates the process and is modelled as the error
    branch of Except;
  * GPU driver entry points that only fail on out-of-memory
    (vkCreateShaderModule / vkCreateGraphicsPipelines behind VK_CHECK_RESULT)
    are modelled as succeeding and recorded in an event trace, so ordering
    properties (what is created / destroyed when) are visible as list
    positions.
-/

namespace VulkanTemplate

/-- Opaque owner handle: the `void*` pointers stored by the watcher registry. -/
abbrev Owner := Nat

/-- std::filesystem::file_time_type, modelled as an integer tick count. -/
abbrev FileTime := Int

/-- The observed filesystem: last_write_time for every path.  The watcher's
known gap (stat failure for a deleted path) is outside the claims treated
here, so the function is total. -/
abbrev FS := String → FileTime

/-- FileWatchInfo from FileWatcher.hpp: last seen write time plus the list of
registered owners (`std::vector<void*> owners`). -/
structure FileWatchInfo where
  filetime : FileTime
  owners : List Owner
deriving Repr, DecidableEq

/-- The registry `std::unordered_map<std::string, FileWatchInfo> files`,
embedded as an association list keyed by path.  Iteration order of the C++
map is unspecified; the claims proved below are per-path and do not depend
on the order fixed by the list. -/
abbrev WatchMap := List (String × FileWatchInfo)

/-- unordered_map::find, yielding the mapped FileWatchInfo of the first entry
with the given key. -/
def findInfo (files : WatchMap) (p : String) : Option FileWatchInfo :=
  match files with
  | [] => none
  | e :: rest => if e.1 = p then some e.2 else findInfo rest p

/-- In-place update (`files[filename] = ...` on an existing key): rewrite the
mapped value of the entry holding the key. -/
def updateEntry (p : String) (f : FileWatchInfo → FileWatchInfo) : WatchMap → WatchMap
  | [] => []
  | e :: rest => if e.1 = p then (e.1, f e.2) :: rest else e :: updateEntry p f rest

/-- FileWatcher::addFile: a new path is inserted with its current
last_write_time (the one stat made at registration) and a one-element owner
list; an already registered path only gets the owner appended to its owner
vector (`files[filename].owners.push_back(owner)`), with no new stat. -/
def addFile (statTime : FS) (files : WatchMap) (filename : String) (owner : Owner) : WatchMap :=
  match findInfo files filename with
  | none => files ++ [(filename, { filetime := statTime filename, owners := [owner] })]
  | some _ => updateEntry filename (fun i => { i with owners := i.owners ++ [owner] }) files

/-- Registration of one path for several owners in sequence (the repeated
addFile calls the fan-out test of the spec describes). -/
def addFiles (statTime : FS) (files : WatchMap) (filename : String) (os : List Owner) : WatchMap :=
  os.foldl (fun m o => addFile statTime m filename o) files

/-- Primitive effects of one poll iteration of FileWatcher::watch, in program
order: the store to `files[file.first].filetime` and the invocation of
onFileChanged with the entry's owner list. -/
inductive WatchEvent where
  | updateTime (path : String) (t : FileTime)
  | callback (path : String) (owners : List Owner)
deriving Repr, DecidableEq

/-- Body of the per-entry loop in FileWatcher::watch: re-stat the path; when
the time differs from the stored one, first update the stored time, then
invoke the callback with the stored owners. -/
def tickEntry (fs : FS) (e : String × FileWatchInfo) : (String × FileWatchInfo) × List WatchEvent :=
  if e.2.filetime ≠ fs e.1 then
    ((e.1, { e.2 with filetime := fs e.1 }),
      [WatchEvent.updateTime e.1 (fs e.1), WatchEvent.callback e.1 e.2.owners])
  else (e, [])

/-- One full poll tick of FileWatcher::watch (the `for (auto& file : files)`
loop after the sleep): every entry is visited once, the registry is updated
and the emitted events are concatenated in iteration order. -/
def watchTick (fs : FS) : WatchMap → WatchMap × List WatchEvent
  | [] => ([], [])
  | e :: rest =>
    let step := tickEntry fs e
    let tail := watchTick fs rest
    (step.1 :: tail.1, step.2 ++ tail.2)

/-- Path named by a watch event. -/
def eventPath : WatchEvent → String
  | .updateTime p _ => p
  | .callback p _ => p

/-- Events concerning one path. -/
def eventForPath (path : String) (ev : WatchEvent) : Bool :=
  eventPath ev == path

/-- Callback invocations concerning one path. -/
def isCallbackFor (path : String) : WatchEvent → Bool
  | .callback p _ => p == path
  | _ => false

lemma eventPath_tickEntry (fs : FS) (e : String × FileWatchInfo) :
    ∀ ev ∈ (tickEntry fs e).2, eventPath ev = e.1 := by
  intro ev hev
  unfold tickEntry at hev
  by_cases h : e.2.filetime = fs e.1
  · simp [h] at hev
  · simp [h] at hev
    rcases hev with h1 | h1 <;> subst h1 <;> rfl

lemma filter_eq_nil_of_path_ne (path q : String) (hq : q ≠ path) (evs : List WatchEvent)
    (hevs : ∀ ev ∈ evs, eventPath ev = q) :
    evs.filter (eventForPath path) = [] ∧ evs.filter (isCallbackFor path) = [] := by
  constructor
  · rw [List.filter_eq_nil_iff]
    intro ev hev
    simp [eventForPath, hevs ev hev, hq]
  · rw [List.filter_eq_nil_iff]
    intro ev hev
    cases ev with
    | updateTime p t => simp [isCallbackFor]
    | callback p os =>
      have : p = q := hevs _ hev
      subst this
      simp [isCallbackFor, hq]

lemma watchTick_filter_of_not_mem (fs : FS) (path : String) :
    ∀ files : WatchMap, path ∉ files.map Prod.fst →
      ((watchTick fs files).2.filter (eventForPath path) = [] ∧
       (watchTick fs files).2.filter (isCallbackFor path) = [])
  | [], _ => by simp [watchTick]
  | e :: rest, h => by
    simp only [List.map_cons, List.mem_cons] at h
    push_neg at h
    obtain ⟨h1, h2⟩ := h
    have ih := watchTick_filter_of_not_mem fs path rest h2
    have hhead := filter_eq_nil_of_path_ne path e.1 (fun hc => h1 hc.symm)
      (tickEntry fs e).2 (eventPath_tickEntry fs e)
    simp [watchTick, List.filter_append, ih.1, ih.2, hhead.1, hhead.2]

lemma watchTick_filter_spec (fs : FS) :
    ∀ (files : WatchMap) (path : String) (info : FileWatchInfo),
      (files.map Prod.fst).Nodup → (path, info) ∈ files →
      ((watchTick fs files).2.filter (eventForPath path) =
         if info.filetime = fs path then []
         else [WatchEvent.updateTime path (fs path), WatchEvent.callback path info.owners]) ∧
      ((watchTick fs files).2.filter (isCallbackFor path) =
         if info.filetime = fs path then [] else [WatchEvent.callback path info.owners]) := by
  intro files
  induction files with
  | nil => intro path info _ hmem; simp at hmem
  | cons e rest ih =>
    intro path info hnd hmem
    simp only [List.map_cons, List.nodup_cons] at hnd
    obtain ⟨hkey, hndr⟩ := hnd
    rcases List.mem_cons.mp hmem with heq | hrest
    · subst heq
      have hnotr : path ∉ rest.map Prod.fst := hkey
      have htail := watchTick_filter_of_not_mem fs path rest hnotr
      by_cases hch : info.filetime = fs path
      · simp [watchTick, List.filter_append, htail.1, htail.2, tickEntry, hch]
      · simp [watchTick, List.filter_append, htail.1, htail.2, tickEntry, hch,
          eventForPath, eventPath, isCallbackFor]
    · have hpr : path ∈ rest.map Prod.fst :=
        List.mem_map.mpr ⟨(path, info), hrest, rfl⟩
      have hne : e.1 ≠ path := fun hc => hkey (hc ▸ hpr)
      have hhead := filter_eq_nil_of_path_ne path e.1 hne
        (tickEntry fs e).2 (eventPath_tickEntry fs e)
      have iht := ih path info hndr hrest
      simp [watchTick, List.filter_append, hhead.1, hhead.2, iht.1, iht.2]

lemma watchTick_owners (fs : FS) : ∀ files : WatchMap,
    (watchTick fs files).1.map (fun e => (e.1, e.2.owners)) =
      files.map (fun e => (e.1, e.2.owners))
  | [] => rfl
  | e :: rest => by
    have ih := watchTick_owners fs rest
    unfold watchTick tickEntry
    by_cases h : e.2.filetime = fs e.1 <;> simp [h, ih]

lemma watchTick_mem (fs : FS) : ∀ (files : WatchMap) (path : String) (info : FileWatchInfo),
    (path, info) ∈ files →
    (path, if info.filetime = fs path then info else { info with filetime := fs path }) ∈
      (watchTick fs files).1
  | [], _, _, hmem => by simp at hmem
  | e :: rest, path, info, hmem => by
    rcases List.mem_cons.mp hmem with heq | hrest
    · subst heq
      unfold watchTick tickEntry
      by_cases h : info.filetime = fs path <;> simp [h]
    · have ih := watchTick_mem fs rest path info hrest
      unfold watchTick
      exact List.mem_cons_of_mem _ ih

lemma findInfo_mem : ∀ (files : WatchMap) (p : String) (i : FileWatchInfo),
    findInfo files p = some i → (p, i) ∈ files
  | [], _, _, h => by simp [findInfo] at h
  | e :: rest, p, i, h => by
    unfold findInfo at h
    by_cases hk : e.1 = p
    · rw [if_pos hk] at h
      obtain ⟨e1, e2⟩ := e
      cases hk
      injection h with h2
      subst h2
      exact List.mem_cons_self _ _
    · rw [if_neg hk] at h
      exact List.mem_cons_of_mem _ (findInfo_mem rest p i h)

lemma findInfo_none_iff : ∀ (files : WatchMap) (p : String),
    findInfo files p = none ↔ p ∉ files.map Prod.fst
  | [], p => by simp [findInfo]
  | e :: rest, p => by
    unfold findInfo
    by_cases hk : e.1 = p
    · simp [hk]
    · rw [if_neg hk, findInfo_none_iff rest p]
      simp only [List.map_cons, List.mem_cons]
      constructor
      · intro hnone hc
        rcases hc with hc | hc
        · exact hk hc.symm
        · exact hnone hc
      · intro hn hc
        exact hn (Or.inr hc)

lemma updateEntry_keys (p : String) (f : FileWatchInfo → FileWatchInfo) :
    ∀ files : WatchMap, (updateEntry p f files).map Prod.fst = files.map Prod.fst
  | [] => rfl
  | e :: rest => by
    unfold updateEntry
    by_cases hk : e.1 = p <;> simp [hk, updateEntry_keys p f rest]

lemma findInfo_updateEntry_self (p : String) (f : FileWatchInfo → FileWatchInfo) :
    ∀ (files : WatchMap) (i : FileWatchInfo), findInfo files p = some i →
      findInfo (updateEntry p f files) p = some (f i)
  | [], i, h => by simp [findInfo] at h
  | e :: rest, i, h => by
    unfold findInfo at h
    unfold updateEntry
    by_cases hk : e.1 = p
    · simp [hk] at h
      simp [findInfo, hk, h]
    · simp [hk] at h
      simp [findInfo, hk, findInfo_updateEntry_self p f rest i h]

lemma findInfo_append_right (p : String) :
    ∀ (files : WatchMap) (tl : WatchMap), findInfo files p = none →
      findInfo (files ++ tl) p = findInfo tl p
  | [], tl, _ => rfl
  | e :: rest, tl, h => by
    have hk : ¬ e.1 = p := by
      intro hc
      unfold findInfo at h
      rw [if_pos hc] at h
      exact Option.noConfusion h
    have h2 : findInfo rest p = none := by
      unfold findInfo at h
      rwa [if_neg hk] at h
    rw [List.cons_append]
    show (if e.1 = p then some e.2 else findInfo (rest ++ tl) p) = findInfo tl p
    rw [if_neg hk]
    exact findInfo_append_right p rest tl h2

lemma findInfo_addFile_some (stat : FS) (files : WatchMap) (p : String) (o : Owner)
    (i : FileWatchInfo) (h : findInfo files p = some i) :
    findInfo (addFile stat files p o) p = some ⟨i.filetime, i.owners ++ [o]⟩ := by
  unfold addFile
  rw [h]
  exact findInfo_updateEntry_self p _ files i h

lemma findInfo_addFile_none (stat : FS) (files : WatchMap) (p : String) (o : Owner)
    (h : findInfo files p = none) :
    findInfo (addFile stat files p o) p = some ⟨stat p, [o]⟩ := by
  unfold addFile
  rw [h, findInfo_append_right p files _ h]
  simp [findInfo]

lemma addFile_keys_some (stat : FS) (files : WatchMap) (p : String) (o : Owner)
    (i : FileWatchInfo) (h : findInfo files p = some i) :
    (addFile stat files p o).map Prod.fst = files.map Prod.fst := by
  unfold addFile
  rw [h]
  exact updateEntry_keys p _ files

lemma addFile_keys_none (stat : FS) (files : WatchMap) (p : String) (o : Owner)
    (h : findInfo files p = none) :
    (addFile stat files p o).map Prod.fst = files.map Prod.fst ++ [p] := by
  unfold addFile
  rw [h]
  simp

lemma addFiles_some (stat : FS) :
    ∀ (os : List Owner) (files : WatchMap) (p : String) (i : FileWatchInfo),
      findInfo files p = some i →
      findInfo (addFiles stat files p os) p = some ⟨i.filetime, i.owners ++ os⟩ ∧
      (addFiles stat files p os).map Prod.fst = files.map Prod.fst
  | [], files, p, i, h => by simp [addFiles, h]
  | o :: os, files, p, i, h => by
    have h1 := findInfo_addFile_some stat files p o i h
    have hk := addFile_keys_some stat files p o i h
    have ih := addFiles_some stat os (addFile stat files p o) p ⟨i.filetime, i.owners ++ [o]⟩ h1
    constructor
    · rw [show addFiles stat files p (o :: os) = addFiles stat (addFile stat files p o) p os
        from rfl]
      rw [ih.1]
      simp
    · rw [show addFiles stat files p (o :: os) = addFiles stat (addFile stat files p o) p os
        from rfl]
      rw [ih.2, hk]

lemma addFiles_fresh (stat : FS) (files : WatchMap) (p : String) (o : Owner) (os : List Owner)
    (h : findInfo files p = none) :
    findInfo (addFiles stat files p (o :: os)) p = some ⟨stat p, o :: os⟩ ∧
    (addFiles stat files p (o :: os)).map Prod.fst = files.map Prod.fst ++ [p] := by
  have h1 := findInfo_addFile_none stat files p o h
  have hk := addFile_keys_none stat files p o h
  have ih := addFiles_some stat os (addFile stat files p o) p ⟨stat p, [o]⟩ h1
  constructor
  · rw [show addFiles stat files p (o :: os) = addFiles stat (addFile stat files p o) p os
      from rfl]
    rw [ih.1]
    simp
  · rw [show addFiles stat files p (o :: os) = addFiles stat (addFile stat files p o) p os
      from rfl]
    rw [ih.2, hk]

/-- C6: fan-out correctness.  When a path has been registered through addFile for
any nonempty list of owners and one poll tick of FileWatcher::watch observes a
modification time differing from the stored one, onFileChanged is invoked exactly
once for that path in the tick, with the owner list carrying every registered
owner — never once per owner. -/
theorem fanout_single_callback_all_owners (stat fs : FS) (files0 : WatchMap)
    (path : String) (os : List Owner)
    (hnd : (files0.map Prod.fst).Nodup) (hfresh : findInfo files0 path = none)
    (hos : os ≠ []) (hch : stat path ≠ fs path) :
    ((watchTick fs (addFiles stat files0 path os)).2.filter (isCallbackFor path)) =
      [WatchEvent.callback path os] := by
  obtain ⟨o, os', rfl⟩ := List.exists_cons_of_ne_nil hos
  have hf := addFiles_fresh stat files0 path o os' hfresh
  have hmem := findInfo_mem _ _ _ hf.1
  have hnd2 : ((addFiles stat files0 path (o :: os')).map Prod.fst).Nodup := by
    rw [hf.2]
    refine List.Nodup.append hnd (List.nodup_singleton path) ?_
    intro a ha hb
    rw [List.mem_singleton] at hb
    exact (findInfo_none_iff files0 path).mp hfresh (hb ▸ ha)
  have hspec := watchTick_filter_spec fs (addFiles stat files0 path (o :: os'))
    path ⟨stat path, o :: os'⟩ hnd2 hmem
  rw [hspec.2]
  exact if_neg hch

/-- C6 witness: three owners registered for one path, one changed tick, one
callback carrying all three. -/
theorem fanout_single_callback_all_owners_witness :
    ((watchTick (fun _ => 2) (addFiles (fun _ => 1) [] "m.vert" [10, 11, 12])).2.filter
        (isCallbackFor "m.vert")) = [WatchEvent.callback "m.vert" [10, 11, 12]] :=
  fanout_single_callback_all_owners (fun _ => 1) (fun _ => 2) [] "m.vert" [10, 11, 12]
    (by simp) rfl (by simp) (by decide)

/-- C7 counterexample: two addFile calls with the same path and the same owner
leave that owner twice in the stored owner vector (std::vector push_back, no set
semantics), so the owner set does not hold a single occurrence of the owner. -/
theorem addFile_twice_duplicates_owner :
    (findInfo (addFile (fun _ => 5) (addFile (fun _ => 5) [] "m.vert" 10) "m.vert" 10)
        "m.vert").map FileWatchInfo.owners = some [10, 10] ∧
    ¬ ((findInfo (addFile (fun _ => 5) (addFile (fun _ => 5) [] "m.vert" 10) "m.vert" 10)
        "m.vert").map (fun i => i.owners.count 10) = some 1) := by
  constructor
  · rfl
  · intro h
    have : (some 2 : Option Nat) = some 1 := h
    simp at this

/-- C7 amended: a second addFile call for an already registered path appends the
owner to the stored owner vector (duplicating a repeated (path, owner) pair rather
than deduplicating it), does not re-stat the file, and leaves the stored
modification timestamp unchanged — the result does not depend on the filesystem
time visible at the second call. -/
theorem addFile_appends_owner_no_restat (statA statB : FS) (files : WatchMap)
    (path : String) (o : Owner) (i : FileWatchInfo) (h : findInfo files path = some i) :
    findInfo (addFile statA files path o) path = some ⟨i.filetime, i.owners ++ [o]⟩ ∧
    addFile statA files path o = addFile statB files path o := by
  refine ⟨findInfo_addFile_some statA files path o i h, ?_⟩
  unfold addFile
  rw [h]

/-- C7 amended witness: re-adding owner 10 for an existing entry keeps timestamp 5,
appends the duplicate, and ignores the (different) current filesystem time. -/
theorem addFile_appends_owner_no_restat_witness :
    findInfo (addFile (fun _ => 9) [("m.vert", ⟨5, [10]⟩)] "m.vert" 10) "m.vert" =
        some ⟨5, [10] ++ [10]⟩ ∧
    addFile (fun _ => 9) [("m.vert", ⟨5, [10]⟩)] "m.vert" 10 =
        addFile (fun _ => 77) [("m.vert", ⟨5, [10]⟩)] "m.vert" 10 :=
  addFile_appends_owner_no_restat (fun _ => 9) (fun _ => 77)
    [("m.vert", ⟨5, [10]⟩)] "m.vert" 10 ⟨5, [10]⟩ rfl

/-- C10: change detection fires on any inequality of modification times (also when
the observed time moves backwards), and the stored timestamp is updated to the
observed value before the callback is invoked: in the tick's event order the
timestamp store precedes the callback, and the updated registry holds the observed
time. -/
theorem watch_detects_any_mtime_change (fs : FS) (files : WatchMap) (path : String)
    (info : FileWatchInfo) (hnd : (files.map Prod.fst).Nodup) (hmem : (path, info) ∈ files)
    (hch : info.filetime ≠ fs path) :
    ((watchTick fs files).2.filter (eventForPath path) =
        [WatchEvent.updateTime path (fs path), WatchEvent.callback path info.owners]) ∧
    (path, { info with filetime := fs path }) ∈ (watchTick fs files).1 := by
  have hspec := watchTick_filter_spec fs files path info hnd hmem
  have hm := watchTick_mem fs files path info hmem
  rw [if_neg hch] at hm
  refine ⟨?_, hm⟩
  rw [hspec.1]
  exact if_neg hch

/-- C10 witness: the stored time is 5 and the observed time 3 — the file moved
backwards — and the tick still stores 3 and then fires the callback. -/
theorem watch_detects_any_mtime_change_witness :
    ((watchTick (fun _ => 3) [("m.vert", ⟨5, [10]⟩)]).2.filter (eventForPath "m.vert") =
        [WatchEvent.updateTime "m.vert" 3, WatchEvent.callback "m.vert" [10]]) ∧
    ("m.vert", ⟨3, [10]⟩) ∈ (watchTick (fun _ => 3) [("m.vert", ⟨5, [10]⟩)]).1 :=
  watch_detects_any_mtime_change (fun _ => 3) [("m.vert", ⟨5, [10]⟩)] "m.vert" ⟨5, [10]⟩
    (by simp) (by simp) (by decide)

/-- A Vulkan object handle, as an opaque numeric identity (VK_NULL_HANDLE is 0). -/
abbrev VkHandle := Nat

/-- GPU/driver effects performed by the Pipeline wrapper, in program order.
vkCreateShaderModule and vkCreateGraphicsPipelines sit behind VK_CHECK_RESULT and
are modelled as succeeding on the input validated by the preceding asserts. -/
inductive VkEvent where
  | waitIdle
  | destroyPipeline (h : VkHandle)
  | createShaderModule (m : VkHandle)
  | destroyShaderModule (m : VkHandle)
  | createPipeline (h : VkHandle)
  | logError (msg : String)
  | logInfo (msg : String)
deriving Repr, DecidableEq

/-- A failed C assert(): terminates the process.  The carried string is the
asserted condition. -/
structure AssertFailure where
  cond : String
deriving Repr, DecidableEq

/-- The shader files visible to createPipelineObject: byte size per path, none
when the file cannot be opened (ifstream::is_open false). -/
abbrev ShaderFS := String → Option Nat

/-- VkShaderStageFlagBits, restricted to the values createPipelineObject uses. -/
inductive VkShaderStageFlagBits where
  | vertexBit
  | fragmentBit
  | maxEnum
deriving Repr, DecidableEq

/-- std::string::find(c, pos): index of the first occurrence of the character at
or after pos; none models std::string::npos. -/
def strFindFrom (s : String) (c : Char) (pos : Nat) : Option Nat :=
  ((s.toList.drop pos).findIdx? (fun a => a == c)).map (fun i => i + pos)

/-- std::string::substr(pos, len) on the character-list view of the string. -/
def strSubstr (s : String) (pos len : Nat) : String :=
  String.mk ((s.toList.drop pos).take len)

/-- Shader-stage selection at the top of the per-file loop of
Pipeline::createPipelineObject: ext is the text between the first dot and the
following dot (to the end of the string when there is no second dot, which is
what substr does with the huge npos-arithmetic length), "vert" and "frag" map to
the two stages, and the two asserts check that a dot exists and that a stage was
recognized. -/
def shaderStageFromFilename (filename : String) : Except AssertFailure VkShaderStageFlagBits :=
  match strFindFrom filename '.' 0 with
  | none => Except.error ⟨"extpos != std::string::npos"⟩
  | some extpos =>
    let ext :=
      match strFindFrom filename '.' (extpos + 1) with
      | some extend => strSubstr filename (extpos + 1) (extend - extpos - 1)
      | none => strSubstr filename (extpos + 1) (filename.length - extpos)
    let shaderStage :=
      if ext = "vert" then VkShaderStageFlagBits.vertexBit
      else if ext = "frag" then VkShaderStageFlagBits.fragmentBit
      else VkShaderStageFlagBits.maxEnum
    if shaderStage = VkShaderStageFlagBits.maxEnum then
      Except.error ⟨"shaderStage != VK_SHADER_STAGE_FLAG_BITS_MAX_ENUM"⟩
    else Except.ok shaderStage

/-- One iteration of the shader loop of createPipelineObject (the non-Android
branch): determine the stage from the extension, open and read the file (an
unopenable file is reported on stderr and leaves shaderSize at 0), assert a
positive size, then create the shader module. -/
def processShader (fs : ShaderFS) (filename : String) (moduleId : VkHandle) :
    List VkEvent × Except AssertFailure VkShaderStageFlagBits :=
  match shaderStageFromFilename filename with
  | Except.error a => ([], Except.error a)
  | Except.ok stage =>
    match fs filename with
    | some sz =>
      if 0 < sz then ([VkEvent.createShaderModule moduleId], Except.ok stage)
      else ([], Except.error ⟨"shaderSize > 0"⟩)
    | none =>
      ([VkEvent.logError ("Error: Could not open shader file \"" ++ filename ++ "\"")],
       Except.error ⟨"shaderSize > 0"⟩)

/-- The whole shader loop: modules get successive fresh identities starting at
the given counter; the loop stops at the first failed assert (the process is
gone).  On success it returns the module identities for the later cleanup
loop. -/
def loadShaders (fs : ShaderFS) : List String → Nat → List VkEvent × Except AssertFailure (List VkHandle)
  | [], _ => ([], Except.ok [])
  | f :: rest, moduleId =>
    match processShader fs f moduleId with
    | (evs, Except.error a) => (evs, Except.error a)
    | (evs, Except.ok _stage) =>
      match loadShaders fs rest (moduleId + 1) with
      | (evs2, Except.error a) => (evs ++ evs2, Except.error a)
      | (evs2, Except.ok mods) => (evs ++ evs2, Except.ok (moduleId :: mods))

/-- PipelineCreateInfo: only the fields that influence the control flow treated
here are carried (shader source paths and the hot-reload switch); the
fixed-function state blocks are opaque payload copied verbatim into the new
pipeline and are omitted. -/
structure PipelineCreateInfo where
  shaders : List String
  enableHotReload : Bool
deriving Repr, DecidableEq

/-- Pipeline::createPipelineObject: compile every shader stage, build the
pipeline object (vkCreateGraphicsPipelines writes the new handle into the
member), then destroy the transient shader modules.  The fresh pipeline handle
is the given counter; modules use the following identities.  Returns the event
trace together with the new handle, or the failed assert that aborted the
process. -/
def createPipelineObject (fs : ShaderFS) (createInfo : PipelineCreateInfo) (fresh : Nat) :
    List VkEvent × Except AssertFailure VkHandle :=
  match loadShaders fs createInfo.shaders (fresh + 1) with
  | (evs, Except.error a) => (evs, Except.error a)
  | (evs, Except.ok mods) =>
    (evs ++ [VkEvent.createPipeline fresh] ++ mods.map VkEvent.destroyShaderModule,
     Except.ok fresh)

/-- The Pipeline wrapper state: the live handle, the snapshot of the creation
parameters kept when hot reload is enabled, and the object identity the watcher
registry stores.  The wantsReload flag is read and written by Application
(main.cpp); its declaration is absent from the snapshot's Pipeline.hpp and is
modelled from the spec as a plain boolean that nothing in Pipeline.hpp ever
writes. -/
structure Pipeline where
  id : Nat
  handle : VkHandle
  initialCreateInfo : Option PipelineCreateInfo
  wantsReload : Bool
deriving Repr, DecidableEq

/-- Pipeline::reload: assert the create-info snapshot exists, wait for the
device to go idle, destroy the live pipeline handle, then rebuild through
createPipelineObject and log.  Returns the updated wrapper plus the next fresh
handle counter; nothing here touches wantsReload. -/
def Pipeline.reload (fs : ShaderFS) (p : Pipeline) (fresh : Nat) :
    List VkEvent × Except AssertFailure (Pipeline × Nat) :=
  match p.initialCreateInfo with
  | none => ([], Except.error ⟨"initialCreateInfo"⟩)
  | some ci =>
    match createPipelineObject fs ci fresh with
    | (evs, Except.error a) =>
      (VkEvent.waitIdle :: VkEvent.destroyPipeline p.handle :: evs, Except.error a)
    | (evs, Except.ok h) =>
      (VkEvent.waitIdle :: VkEvent.destroyPipeline p.handle ::
         (evs ++ [VkEvent.logInfo "Pipeline recreated"]),
       Except.ok ({ p with handle := h }, fresh + 1 + ci.shaders.length))

/-- Destroy and create steps among the wrapper's GPU effects. -/
def isDestroyOrCreate : VkEvent → Bool
  | VkEvent.destroyPipeline _ => true
  | VkEvent.destroyShaderModule _ => true
  | VkEvent.createPipeline _ => true
  | VkEvent.createShaderModule _ => true
  | _ => false

/-- A filesystem on which both demo shader sources open with a positive size. -/
def shaderFSgood : ShaderFS := fun f =>
  if f = "a.vert" then some 842 else if f = "a.frag" then some 730 else none

/-- A filesystem on which the fragment shader source is missing. -/
def shaderFSbad : ShaderFS := fun f => if f = "a.vert" then some 842 else none

/-- Creation parameters of the demo pipeline, hot reload enabled. -/
def ciDemo : PipelineCreateInfo := { shaders := ["a.vert", "a.frag"], enableHotReload := true }

/-- A live demo pipeline wrapping handle 7, flagged for reload. -/
def pipelineDemo : Pipeline :=
  { id := 40, handle := 7, initialCreateInfo := some ciDemo, wantsReload := true }

/-- The trace of a successful reload of the demo pipeline with fresh counter 100. -/
def reloadDemoTrace : List VkEvent :=
  [VkEvent.waitIdle, VkEvent.destroyPipeline 7, VkEvent.createShaderModule 101,
   VkEvent.createShaderModule 102, VkEvent.createPipeline 100,
   VkEvent.destroyShaderModule 101, VkEvent.destroyShaderModule 102,
   VkEvent.logInfo "Pipeline recreated"]

lemma reload_trace_shape (fs : ShaderFS) (p : Pipeline) (fresh : Nat)
    (ci : PipelineCreateInfo) (hci : p.initialCreateInfo = some ci) :
    ∃ rest r, Pipeline.reload fs p fresh =
      (VkEvent.waitIdle :: VkEvent.destroyPipeline p.handle :: rest, r) := by
  unfold Pipeline.reload
  split
  · rename_i heq
    rw [hci] at heq
    exact Option.noConfusion heq
  · rename_i ci2 heq
    split
    · rename_i evs a heq2
      exact ⟨evs, Except.error a, rfl⟩
    · rename_i evs h heq2
      exact ⟨_, _, rfl⟩

lemma reload_eq_of_create_error (fs : ShaderFS) (p : Pipeline) (fresh : Nat)
    (ci : PipelineCreateInfo) (evs : List VkEvent) (a : AssertFailure)
    (hci : p.initialCreateInfo = some ci)
    (hc : createPipelineObject fs ci fresh = (evs, Except.error a)) :
    Pipeline.reload fs p fresh =
      (VkEvent.waitIdle :: VkEvent.destroyPipeline p.handle :: evs, Except.error a) := by
  unfold Pipeline.reload
  split
  · rename_i heq
    rw [hci] at heq
    exact Option.noConfusion heq
  · rename_i ci2 heq
    rw [hci] at heq
    injection heq with heq
    subst heq
    rw [hc]

lemma processShader_ok_size (fs : ShaderFS) (f : String) (m : Nat)
    (stage : VkShaderStageFlagBits) (h : (processShader fs f m).2 = Except.ok stage) :
    ∃ sz, fs f = some sz ∧ 0 < sz := by
  unfold processShader at h
  split at h
  · simp at h
  · rename_i st hstage
    split at h
    · rename_i sz hf
      split at h
      · rename_i hpos
        exact ⟨sz, hf, hpos⟩
      · simp at h
    · simp at h

lemma loadShaders_error_of_bad (fs : ShaderFS) :
    ∀ (files : List String) (n : Nat), (∃ f ∈ files, fs f = none ∨ fs f = some 0) →
      ∃ a, (loadShaders fs files n).2 = Except.error a
  | [], _, hbad => by simp at hbad
  | f0 :: rest, n, hbad => by
    rcases hp : processShader fs f0 n with ⟨evs, r⟩
    cases r with
    | error a =>
      refine ⟨a, ?_⟩
      unfold loadShaders
      rw [hp]
    | ok stage =>
      obtain ⟨sz, hsz, hpos⟩ := processShader_ok_size fs f0 n stage (by rw [hp])
      have hrest : ∃ f ∈ rest, fs f = none ∨ fs f = some 0 := by
        obtain ⟨f, hf, hcase⟩ := hbad
        rcases List.mem_cons.mp hf with rfl | hf2
        · rcases hcase with hc | hc
          · rw [hsz] at hc
            exact Option.noConfusion hc
          · rw [hsz] at hc
            injection hc with hc
            omega
        · exact ⟨f, hf2, hcase⟩
      obtain ⟨a, ha⟩ := loadShaders_error_of_bad fs rest (n + 1) hrest
      rcases hl : loadShaders fs rest (n + 1) with ⟨evs2, r2⟩
      rw [hl] at ha
      refine ⟨a, ?_⟩
      unfold loadShaders
      rw [hp, hl]
      simp only at ha
      rw [ha]

lemma createPipelineObject_error_of_bad (fs : ShaderFS) (ci : PipelineCreateInfo)
    (fresh : Nat) (hbad : ∃ f ∈ ci.shaders, fs f = none ∨ fs f = some 0) :
    ∃ evs a, createPipelineObject fs ci fresh = (evs, Except.error a) := by
  obtain ⟨a, ha⟩ := loadShaders_error_of_bad fs ci.shaders (fresh + 1) hbad
  rcases hl : loadShaders fs ci.shaders (fresh + 1) with ⟨evs, r⟩
  rw [hl] at ha
  simp only at ha
  refine ⟨evs, a, ?_⟩
  unfold createPipelineObject
  rw [hl, ha]

/-- C3: every invocation of Pipeline::reload with a stored create-info snapshot
performs the full device-idle wait as its first GPU-relevant step: the wait heads
the trace, and no destroy or create step precedes it (any such step sits at a
strictly later position). -/
theorem reload_waits_for_idle_first (fs : ShaderFS) (p : Pipeline) (fresh : Nat)
    (ci : PipelineCreateInfo) (hci : p.initialCreateInfo = some ci) :
    ∃ tr r, Pipeline.reload fs p fresh = (tr, r) ∧
      tr.head? = some VkEvent.waitIdle ∧
      ∀ i e, tr.get? i = some e → isDestroyOrCreate e = true → 0 < i := by
  obtain ⟨rest, r, heq⟩ := reload_trace_shape fs p fresh ci hci
  refine ⟨_, r, heq, rfl, ?_⟩
  intro i e hi hde
  cases i with
  | zero =>
    rw [List.get?_cons_zero] at hi
    injection hi with hi
    rw [← hi] at hde
    simp [isDestroyOrCreate] at hde
  | succ n => exact Nat.succ_pos n

/-- C3 witness: a concrete successful reload starts with the device-idle wait. -/
theorem reload_waits_for_idle_first_witness :
    ∃ tr r, Pipeline.reload shaderFSgood pipelineDemo 100 = (tr, r) ∧
      tr.head? = some VkEvent.waitIdle ∧
      ∀ i e, tr.get? i = some e → isDestroyOrCreate e = true → 0 < i :=
  reload_waits_for_idle_first shaderFSgood pipelineDemo 100 ciDemo rfl

/-- C1 counterexample: in the concrete reload trace the destruction of the old
live handle 7 sits at position 1, and no pipeline-creation step precedes it (the
new pipeline only appears at position 4), refuting that the old handle is
destroyed only after the new pipeline has been fully constructed. -/
theorem reload_not_rollback_safe_counterexample :
    Pipeline.reload shaderFSgood pipelineDemo 100 =
      (reloadDemoTrace, Except.ok ({ pipelineDemo with handle := 100 }, 103)) ∧
    ¬ (∀ i, reloadDemoTrace.get? i = some (VkEvent.destroyPipeline 7) →
        ∃ j h2, j < i ∧ reloadDemoTrace.get? j = some (VkEvent.createPipeline h2)) := by
  constructor
  · rfl
  · intro hcl
    obtain ⟨j, h2, hj, hget⟩ := hcl 1 rfl
    have hj0 : j = 0 := by omega
    subst hj0
    rw [show reloadDemoTrace.get? 0 = some VkEvent.waitIdle from rfl] at hget
    exact VkEvent.noConfusion (Option.some.inj hget)

/-- C1 amended: reload destroys the old live handle strictly before the new
pipeline exists: after the device-idle wait, the destruction of the old handle is
step 1 of the trace and every pipeline-creation step comes strictly later; when
the rebuild fails, reload ends in a failed assert with the old handle already
destroyed, so nothing is rolled back and no pre-attempt handle is live. -/
theorem reload_destroys_old_before_new (fs : ShaderFS) (p : Pipeline) (fresh : Nat)
    (ci : PipelineCreateInfo) (hci : p.initialCreateInfo = some ci) :
    ∃ tr r, Pipeline.reload fs p fresh = (tr, r) ∧
      tr.get? 1 = some (VkEvent.destroyPipeline p.handle) ∧
      (∀ j h2, tr.get? j = some (VkEvent.createPipeline h2) → 1 < j) ∧
      (∀ a, r = Except.error a → VkEvent.destroyPipeline p.handle ∈ tr) := by
  obtain ⟨rest, r, heq⟩ := reload_trace_shape fs p fresh ci hci
  refine ⟨_, r, heq, rfl, ?_, ?_⟩
  · intro j h2 hj
    match j with
    | 0 =>
      rw [List.get?_cons_zero] at hj
      exact VkEvent.noConfusion (Option.some.inj hj)
    | 1 =>
      rw [show (VkEvent.waitIdle :: VkEvent.destroyPipeline p.handle :: rest).get? 1 =
          some (VkEvent.destroyPipeline p.handle) from rfl] at hj
      exact VkEvent.noConfusion (Option.some.inj hj)
    | Nat.succ (Nat.succ n) => omega
  · intro a _
    exact List.mem_cons_of_mem _ (List.mem_cons_self _ _)

/-- C1 amended witness: the demo reload destroys handle 7 at position 1, before
the creation of the new pipeline. -/
theorem reload_destroys_old_before_new_witness :
    ∃ tr r, Pipeline.reload shaderFSgood pipelineDemo 100 = (tr, r) ∧
      tr.get? 1 = some (VkEvent.destroyPipeline pipelineDemo.handle) ∧
      (∀ j h2, tr.get? j = some (VkEvent.createPipeline h2) → 1 < j) ∧
      (∀ a, r = Except.error a → VkEvent.destroyPipeline pipelineDemo.handle ∈ tr) :=
  reload_destroys_old_before_new shaderFSgood pipelineDemo 100 ciDemo rfl

/-- C2 counterexample: a reload with the fragment shader source missing logs the
failed open, then dies on the assert over the shader size — the process
terminates instead of recovering — and the old handle 7 was already destroyed
at trace position 1, so the old pipeline is not the active one either. -/
theorem reload_missing_shader_fatal_counterexample :
    Pipeline.reload shaderFSbad pipelineDemo 100 =
      ([VkEvent.waitIdle, VkEvent.destroyPipeline 7, VkEvent.createShaderModule 101,
        VkEvent.logError "Error: Could not open shader file \"a.frag\""],
       Except.error ⟨"shaderSize > 0"⟩) ∧
    (∀ pr : Pipeline × Nat,
      (Pipeline.reload shaderFSbad pipelineDemo 100).2 ≠ Except.ok pr) := by
  refine ⟨rfl, ?_⟩
  intro pr hok
  exact Except.noConfusion hok

/-- C2 amended: a shader source that fails to load during reload is fatal, not
recoverable: whenever some shader file named in the stored create info is missing
or reads zero bytes, reload ends in a failed assert (terminating the process)
with the old pipeline handle already destroyed; an unopenable file is reported on
stderr just before the assert on its size fires. -/
theorem reload_shader_failure_is_fatal (fs : ShaderFS) (p : Pipeline)
    (ci : PipelineCreateInfo) (fresh : Nat) (hci : p.initialCreateInfo = some ci)
    (hbad : ∃ f ∈ ci.shaders, fs f = none ∨ fs f = some 0) :
    (∃ tr a, Pipeline.reload fs p fresh = (tr, Except.error a) ∧
      VkEvent.destroyPipeline p.handle ∈ tr) ∧
    (∀ f m stage, shaderStageFromFilename f = Except.ok stage → fs f = none →
      processShader fs f m =
        ([VkEvent.logError ("Error: Could not open shader file \"" ++ f ++ "\"")],
         Except.error ⟨"shaderSize > 0"⟩)) := by
  constructor
  · obtain ⟨evs, a, hc⟩ := createPipelineObject_error_of_bad fs ci fresh hbad
    refine ⟨VkEvent.waitIdle :: VkEvent.destroyPipeline p.handle :: evs, a, ?_, ?_⟩
    · exact reload_eq_of_create_error fs p fresh ci evs a hci hc
    · exact List.mem_cons_of_mem _ (List.mem_cons_self _ _)
  · intro f m stage hstage hf
    unfold processShader
    rw [hstage, hf]

/-- C2 amended witness: the concrete reload with "a.frag" missing ends in the
failed size assert with handle 7 already destroyed, and the per-file step for
"a.frag" logs the failed open. -/
theorem reload_shader_failure_is_fatal_witness :
    (∃ tr a, Pipeline.reload shaderFSbad pipelineDemo 100 = (tr, Except.error a) ∧
      VkEvent.destroyPipeline pipelineDemo.handle ∈ tr) ∧
    (∀ f m stage, shaderStageFromFilename f = Except.ok stage → shaderFSbad f = none →
      processShader shaderFSbad f m =
        ([VkEvent.logError ("Error: Could not open shader file \"" ++ f ++ "\"")],
         Except.error ⟨"shaderSize > 0"⟩)) :=
  reload_shader_failure_is_fatal shaderFSbad pipelineDemo ciDemo 100 rfl
    ⟨"a.frag", by simp [ciDemo], Or.inl rfl⟩

/-- vkglTF::ModelCreateInfo (glTF.h:228-232): only the fields that influence the
reload control flow are carried; the float scale is opaque payload and is
omitted. -/
structure ModelCreateInfo where
  filename : String
  enableHotReload : Bool
deriving Repr, DecidableEq

/-- The reload-relevant state of a vkglTF::Model object: its pointer identity,
the retained create-info snapshot (glTF.h:255) and the wantsReload flag
(glTF.h:278, default false). -/
structure Model where
  id : Nat
  initialCreateInfo : Option ModelCreateInfo
  wantsReload : Bool
deriving Repr, DecidableEq

/-- Modelled from the spec: the body of the vkglTF::Model constructor lives in a
translation unit that is not part of the snapshot (only its declaration,
glTF.h:280, is).  Per the spec (§3, Model-specific state) a Model built with
enableHotReload retains an immutable copy of its creation parameters; the header
in the snapshot supplies the defaults initialCreateInfo = nullptr and
wantsReload = false.  The new object's pointer identity is the supplied fresh
number. -/
def mkModel (ci : ModelCreateInfo) (ident : Nat) : Model :=
  { id := ident,
    initialCreateInfo := if ci.enableHotReload then some ci else none,
    wantsReload := false }

/-- The reload-relevant state of an Actor (ActorManager.h): the raw
vkglTF::Model* it was created with; transform fields are opaque payload and are
omitted. -/
structure Actor where
  model : Nat
deriving Repr, DecidableEq

/-- The application state the reload coordinator in Application::render works
on: the global pipelineList, the asset manager's model table, the actor
manager's actors, the file watcher registry, a fresh-pointer counter for new
allocations, and the identities handed to delete so far. -/
structure AppState where
  pipelineList : List Pipeline
  models : List (String × Model)
  actors : List (String × Actor)
  watchFiles : WatchMap
  nextId : Nat
  destroyed : List Nat
deriving Repr, DecidableEq

/-- The per-frame model-reload loop of Application::render (main.cpp:1045-1052):
for every asset-table entry whose model wants a reload, construct a new Model
from the stored create info, delete the old object, and write the new pointer
into the table entry.  Returns none when a model wanting reload has no stored
create info (the source would dereference a null initialCreateInfo there).
Result: updated table, identities deleted, next fresh pointer. -/
def reloadModels : List (String × Model) → Nat →
    Option (List (String × Model) × List Nat × Nat)
  | [], n => some ([], [], n)
  | (name, m) :: rest, n =>
    if m.wantsReload then
      match m.initialCreateInfo with
      | none => none
      | some ci =>
        (reloadModels rest (n + 1)).map
          (fun q => ((name, mkModel ci n) :: q.1, m.id :: q.2.1, q.2.2))
    else
      (reloadModels rest n).map (fun q => ((name, m) :: q.1, q.2.1, q.2.2))

/-- The model part of the coordinator pass, lifted to the application state:
only the model table, the delete log and the fresh counter change — the actors,
the pipeline list and the watcher registry are not touched by the loop. -/
def coordinatorReloadModels (s : AppState) : Option AppState :=
  (reloadModels s.models s.nextId).map fun q =>
    { s with models := q.1, destroyed := s.destroyed ++ q.2.1, nextId := q.2.2 }

/-- The per-frame pipeline-reload loop of Application::render
(main.cpp:1038-1042): every pipeline in pipelineList whose wantsReload flag is
set is reloaded in place (a failed assert inside reload kills the process and
the loop). -/
def reloadPipelines (fs : ShaderFS) : List Pipeline → Nat →
    List VkEvent × Except AssertFailure (List Pipeline × Nat)
  | [], n => ([], Except.ok ([], n))
  | p :: rest, n =>
    if p.wantsReload then
      match Pipeline.reload fs p n with
      | (evs, Except.error a) => (evs, Except.error a)
      | (evs, Except.ok (p2, n2)) =>
        match reloadPipelines fs rest n2 with
        | (evs2, Except.error a) => (evs ++ evs2, Except.error a)
        | (evs2, Except.ok (ps, n3)) => (evs ++ evs2, Except.ok (p2 :: ps, n3))
    else
      match reloadPipelines fs rest n with
      | (evs2, Except.error a) => (evs2, Except.error a)
      | (evs2, Except.ok (ps, n3)) => (evs2, Except.ok (p :: ps, n3))

/-- One owner iteration of the Application's onFileChanged handler
(main.cpp:1082-1092): a pipeline found in pipelineList gets wantsReload set
(std::find on the pointer, modelled as a guarded map over the list), and every
asset-table entry whose pointer equals the owner gets wantsReload set. -/
def markOwner (s : AppState) (owner : Nat) : AppState :=
  { s with
    pipelineList := s.pipelineList.map
      (fun p => if p.id = owner then { p with wantsReload := true } else p),
    models := s.models.map
      (fun e => if e.2.id = owner then (e.1, { e.2 with wantsReload := true }) else e) }

/-- The Application's onFileChanged handler over one callback's owner list. -/
def onFileChanged (s : AppState) (owners : List Owner) : AppState :=
  owners.foldl markOwner s

/-- Effect of one emitted watch event on the application: a callback runs the
onFileChanged handler, the registry's timestamp store has already been folded
into the updated registry. -/
def applyEvent (st : AppState) (ev : WatchEvent) : AppState :=
  match ev with
  | WatchEvent.updateTime _ _ => st
  | WatchEvent.callback _ owners => onFileChanged st owners

/-- One watcher poll tick acting on the application: the registry is updated by
watchTick and every emitted callback runs the onFileChanged handler.  In the
source the callback for an entry runs interleaved with the updates of later
entries; since the callbacks do not read the registry and the registry updates
do not read the flags, folding the callbacks after the tick yields the same
state. -/
def watcherTickApp (fs : FS) (s : AppState) : AppState :=
  let t := watchTick fs s.watchFiles
  t.2.foldl applyEvent { s with watchFiles := t.1 }

/-- Any number of later poll ticks, each against a filesystem observation. -/
def watcherTicksApp (fss : List FS) (s : AppState) : AppState :=
  fss.foldl (fun st fs => watcherTickApp fs st) s

/-- The identity is registered for no watched file of the state. -/
def modelIdAbsent (s : AppState) (x : Nat) : Prop :=
  ∀ e ∈ s.watchFiles, x ∉ e.2.owners

lemma reloadModels_spec :
    ∀ (ms : List (String × Model)) (n : Nat) (ms2 : List (String × Model))
      (dead : List Nat) (n2 : Nat), reloadModels ms n = some (ms2, dead, n2) →
      n ≤ n2 ∧
      (∀ name m, (name, m) ∈ ms → m.wantsReload = false → (name, m) ∈ ms2) ∧
      (∀ name m, (name, m) ∈ ms → m.wantsReload = true →
        m.id ∈ dead ∧
        ∃ ci k, m.initialCreateInfo = some ci ∧ n ≤ k ∧ (name, mkModel ci k) ∈ ms2)
  | [], n, ms2, dead, n2, h => by
    unfold reloadModels at h
    injection h with h
    injection h with h1 h
    injection h with h2 h3
    subst h1
    subst h2
    subst h3
    exact ⟨le_refl n, by simp, by simp⟩
  | (name0, m0) :: rest, n, ms2, dead, n2, h => by
    unfold reloadModels at h
    by_cases hwr : m0.wantsReload = true
    · rw [if_pos hwr] at h
      rcases hci : m0.initialCreateInfo with _ | ci
      · rw [hci] at h
        exact Option.noConfusion h
      · rw [hci] at h
        rw [Option.map_eq_some'] at h
        obtain ⟨q, hq, hqe⟩ := h
        obtain ⟨qm, qd, qn⟩ := q
        simp only [Prod.mk.injEq] at hqe
        obtain ⟨he1, he2, he3⟩ := hqe
        subst he1
        subst he2
        subst he3
        obtain ⟨ihn, ihf, iht⟩ := reloadModels_spec rest (n + 1) qm qd qn hq
        refine ⟨by omega, ?_, ?_⟩
        · intro nm m hmem hf
          rcases List.mem_cons.mp hmem with hh | hh
          · rw [Prod.mk.injEq] at hh
            obtain ⟨rfl, rfl⟩ := hh
            rw [hf] at hwr
            exact absurd hwr (by simp)
          · exact List.mem_cons_of_mem _ (ihf nm m hh hf)
        · intro nm m hmem ht
          rcases List.mem_cons.mp hmem with hh | hh
          · rw [Prod.mk.injEq] at hh
            obtain ⟨rfl, rfl⟩ := hh
            exact ⟨List.mem_cons_self _ _, ci, n, hci, le_refl n, List.mem_cons_self _ _⟩
          · obtain ⟨hd, ci2, k, hk1, hk2, hk3⟩ := iht nm m hh ht
            exact ⟨List.mem_cons_of_mem _ hd, ci2, k, hk1, by omega,
              List.mem_cons_of_mem _ hk3⟩
    · rw [if_neg hwr] at h
      rw [Option.map_eq_some'] at h
      obtain ⟨q, hq, hqe⟩ := h
      obtain ⟨qm, qd, qn⟩ := q
      simp only [Prod.mk.injEq] at hqe
      obtain ⟨he1, he2, he3⟩ := hqe
      subst he1
      subst he2
      subst he3
      obtain ⟨ihn, ihf, iht⟩ := reloadModels_spec rest n qm qd qn hq
      refine ⟨ihn, ?_, ?_⟩
      · intro nm m hmem hf
        rcases List.mem_cons.mp hmem with hh | hh
        · rw [Prod.mk.injEq] at hh
          obtain ⟨rfl, rfl⟩ := hh
          exact List.mem_cons_self _ _
        · exact List.mem_cons_of_mem _ (ihf nm m hh hf)
      · intro nm m hmem ht
        rcases List.mem_cons.mp hmem with hh | hh
        · rw [Prod.mk.injEq] at hh
          obtain ⟨rfl, rfl⟩ := hh
          rw [ht] at hwr
          exact absurd rfl hwr
        · obtain ⟨hd, ci2, k, hk1, hk2, hk3⟩ := iht nm m hh ht
          exact ⟨hd, ci2, k, hk1, hk2, List.mem_cons_of_mem _ hk3⟩

lemma coordinatorReloadModels_spec (s s2 : AppState)
    (h : coordinatorReloadModels s = some s2) :
    s2.actors = s.actors ∧ s2.pipelineList = s.pipelineList ∧
    s2.watchFiles = s.watchFiles ∧ s.nextId ≤ s2.nextId ∧
    (∀ name m, (name, m) ∈ s.models → m.wantsReload = true →
      m.id ∈ s2.destroyed ∧
      ∃ ci k, m.initialCreateInfo = some ci ∧ s.nextId ≤ k ∧
        (name, mkModel ci k) ∈ s2.models) := by
  unfold coordinatorReloadModels at h
  rw [Option.map_eq_some'] at h
  obtain ⟨q, hq, he⟩ := h
  obtain ⟨qm, qd, qn⟩ := q
  subst he
  obtain ⟨hn, hf, ht⟩ := reloadModels_spec s.models s.nextId qm qd qn hq
  refine ⟨rfl, rfl, rfl, hn, ?_⟩
  intro name m hmem hw
  obtain ⟨hd, ci, k, h1, h2, h3⟩ := ht name m hmem hw
  exact ⟨List.mem_append_right _ hd, ci, k, h1, h2, h3⟩

lemma onFileChanged_watchFiles : ∀ (os : List Owner) (s : AppState),
    (onFileChanged s os).watchFiles = s.watchFiles
  | [], _ => rfl
  | o :: os, s => onFileChanged_watchFiles os (markOwner s o)

lemma markOwner_model_mem (s : AppState) (o : Nat) (name : String) (m : Model)
    (hmem : (name, m) ∈ s.models) (hne : m.id ≠ o) : (name, m) ∈ (markOwner s o).models := by
  show (name, m) ∈ s.models.map
    (fun e => if e.2.id = o then (e.1, { e.2 with wantsReload := true }) else e)
  refine List.mem_map.mpr ⟨(name, m), hmem, ?_⟩
  simp [hne]

lemma onFileChanged_model_mem : ∀ (os : List Owner) (s : AppState) (name : String) (m : Model),
    (name, m) ∈ s.models → m.id ∉ os → (name, m) ∈ (onFileChanged s os).models
  | [], _, _, _, hmem, _ => hmem
  | o :: os, s, name, m, hmem, hno => by
    have hne : m.id ≠ o := fun hc => hno (by rw [hc]; exact List.mem_cons_self _ _)
    have h2 : m.id ∉ os := fun hc => hno (List.mem_cons_of_mem _ hc)
    exact onFileChanged_model_mem os (markOwner s o) name m
      (markOwner_model_mem s o name m hmem hne) h2

lemma watchTick_callback_owner_source (fs : FS) :
    ∀ (files : WatchMap) (p : String) (os : List Owner),
      WatchEvent.callback p os ∈ (watchTick fs files).2 → ∃ e ∈ files, os = e.2.owners
  | [], p, os, h => by simp [watchTick] at h
  | e :: rest, p, os, h => by
    unfold watchTick at h
    rw [List.mem_append] at h
    rcases h with h | h
    · unfold tickEntry at h
      by_cases hch : e.2.filetime = fs e.1
      · simp [hch] at h
      · rw [if_pos hch] at h
        rcases List.mem_cons.mp h with h | h
        · exact WatchEvent.noConfusion h
        · rcases List.mem_cons.mp h with h | h
          · injection h with h1 h2
            exact ⟨e, List.mem_cons_self _ _, h2⟩
          · exact absurd h (List.not_mem_nil _)
    · obtain ⟨e2, he2, hos⟩ := watchTick_callback_owner_source fs rest p os h
      exact ⟨e2, List.mem_cons_of_mem _ he2, hos⟩

lemma foldl_applyEvent_model_mem :
    ∀ (evs : List WatchEvent) (st : AppState) (name : String) (m : Model),
      (name, m) ∈ st.models →
      (∀ p os, WatchEvent.callback p os ∈ evs → m.id ∉ os) →
      (name, m) ∈ (evs.foldl applyEvent st).models ∧
      (evs.foldl applyEvent st).watchFiles = st.watchFiles
  | [], _, _, _, hmem, _ => ⟨hmem, rfl⟩
  | ev :: evs, st, name, m, hmem, hcb => by
    have hstep : (name, m) ∈ (applyEvent st ev).models ∧
        (applyEvent st ev).watchFiles = st.watchFiles := by
      cases ev with
      | updateTime p t => exact ⟨hmem, rfl⟩
      | callback p os =>
        exact ⟨onFileChanged_model_mem os st name m hmem (hcb p os (List.mem_cons_self _ _)),
          onFileChanged_watchFiles os st⟩
    have ih := foldl_applyEvent_model_mem evs (applyEvent st ev) name m hstep.1
      (fun p os hin => hcb p os (List.mem_cons_of_mem _ hin))
    exact ⟨ih.1, by rw [List.foldl_cons, ih.2, hstep.2]⟩

lemma watcherTickApp_preserve (fs : FS) (s : AppState) (name : String) (m : Model)
    (hmem : (name, m) ∈ s.models) (habs : modelIdAbsent s m.id) :
    (name, m) ∈ (watcherTickApp fs s).models ∧ modelIdAbsent (watcherTickApp fs s) m.id := by
  have hcb : ∀ p os, WatchEvent.callback p os ∈ (watchTick fs s.watchFiles).2 → m.id ∉ os := by
    intro p os hin
    obtain ⟨e, he, hos⟩ := watchTick_callback_owner_source fs s.watchFiles p os hin
    rw [hos]
    exact habs e he
  have hf := foldl_applyEvent_model_mem (watchTick fs s.watchFiles).2
    { s with watchFiles := (watchTick fs s.watchFiles).1 } name m hmem hcb
  refine ⟨hf.1, ?_⟩
  intro e he
  rw [show (watcherTickApp fs s).watchFiles = (watchTick fs s.watchFiles).1 from hf.2] at he
  have hmm : (e.1, e.2.owners) ∈
      (watchTick fs s.watchFiles).1.map (fun e => (e.1, e.2.owners)) :=
    List.mem_map.mpr ⟨e, he, rfl⟩
  rw [watchTick_owners fs s.watchFiles] at hmm
  obtain ⟨e2, he2, heq⟩ := List.mem_map.mp hmm
  rw [Prod.mk.injEq] at heq
  rw [← heq.2]
  exact habs e2 he2

lemma watcherTicksApp_preserve : ∀ (fss : List FS) (s : AppState) (name : String) (m : Model),
    (name, m) ∈ s.models → modelIdAbsent s m.id →
    (name, m) ∈ (watcherTicksApp fss s).models
  | [], _, _, _, hmem, _ => hmem
  | fs :: fss, s, name, m, hmem, habs => by
    have h1 := watcherTickApp_preserve fs s name m hmem habs
    exact watcherTicksApp_preserve fss (watcherTickApp fs s) name m h1.1 h1.2

lemma reload_ok_shape (fs : ShaderFS) (p : Pipeline) (fresh : Nat) (tr : List VkEvent)
    (p2 : Pipeline) (n2 : Nat)
    (h : Pipeline.reload fs p fresh = (tr, Except.ok (p2, n2))) :
    ∃ ci evs hnew, p.initialCreateInfo = some ci ∧
      createPipelineObject fs ci fresh = (evs, Except.ok hnew) ∧
      p2 = { p with handle := hnew } := by
  unfold Pipeline.reload at h
  split at h
  · rename_i heq
    simp only [Prod.mk.injEq] at h
    exact absurd h.2 (by simp)
  · rename_i ci heq
    split at h
    · rename_i evs a heq2
      simp only [Prod.mk.injEq] at h
      exact absurd h.2 (by simp)
    · rename_i evs hnew heq2
      simp only [Prod.mk.injEq, Except.ok.injEq] at h
      exact ⟨ci, evs, hnew, heq, heq2, h.2.1.symm⟩

/-- Creation parameters of the demo model, hot reload enabled. -/
def ciModelDemo : ModelCreateInfo := { filename := "models/asteroid.glb", enableHotReload := true }

/-- An application state with one hot-reloadable model (pointer 1) flagged for
reload, one actor pointing at it, and the model's file registered in the watcher
with pointer 1 as owner. -/
def appDemo : AppState :=
  { pipelineList := [],
    models := [("asteroid", { id := 1, initialCreateInfo := some ciModelDemo, wantsReload := true })],
    actors := [("asteroid1", { model := 1 })],
    watchFiles := [("models/asteroid.glb", ⟨5, [1]⟩)],
    nextId := 2,
    destroyed := [] }

/-- appDemo after the coordinator's model pass: the asset table holds the fresh
instance 2, the old object 1 has been deleted, and everything else is
unchanged — including the actor, which still points at 1. -/
def appDemoAfter : AppState :=
  { appDemo with
    models := [("asteroid", mkModel ciModelDemo 2)], nextId := 3, destroyed := [1] }

/-- C4 counterexample: after the coordinator reloads the flagged model, the
asset-table entry is the fresh instance but the actor's raw pointer still names
object 1, which has been deleted — a scene reference points at the destroyed old
Model. -/
theorem model_reload_leaves_actor_dangling_counterexample :
    coordinatorReloadModels appDemo = some appDemoAfter ∧
    appDemoAfter.actors = [("asteroid1", { model := 1 })] ∧
    (1 : Nat) ∈ appDemoAfter.destroyed ∧
    ¬ (∀ name a, (name, a) ∈ appDemoAfter.actors → a.model ∉ appDemoAfter.destroyed) := by
  refine ⟨rfl, rfl, List.mem_singleton_self _, ?_⟩
  intro hcl
  exact hcl "asteroid1" { model := 1 } (List.mem_singleton_self _) (List.mem_singleton_self _)

/-- C4 amended: a coordinator Model reload redirects only the asset manager's
table entry to the new instance; actor state is untouched, so every raw Model
pointer an actor holds to a reloaded model still names the old, now-deleted
object. -/
theorem model_reload_redirects_table_only (s s2 : AppState)
    (hrel : coordinatorReloadModels s = some s2) :
    s2.actors = s.actors ∧
    (∀ name m, (name, m) ∈ s.models → m.wantsReload = true →
      m.id ∈ s2.destroyed ∧
      ∃ ci k, m.initialCreateInfo = some ci ∧ s.nextId ≤ k ∧
        (name, mkModel ci k) ∈ s2.models) ∧
    (∀ aname a name m, (aname, a) ∈ s.actors → (name, m) ∈ s.models →
      m.wantsReload = true → a.model = m.id →
      (aname, a) ∈ s2.actors ∧ a.model ∈ s2.destroyed) := by
  obtain ⟨hact, hpl, hwf, hn, ht⟩ := coordinatorReloadModels_spec s s2 hrel
  refine ⟨hact, ht, ?_⟩
  intro aname a name m ha hm hw hid
  refine ⟨by rw [hact]; exact ha, ?_⟩
  rw [hid]
  exact (ht name m hm hw).1

/-- C4 amended witness: the demo state, where the actor keeps its dangling
pointer after the reload. -/
theorem model_reload_redirects_table_only_witness :
    appDemoAfter.actors = appDemo.actors ∧
    (∀ name m, (name, m) ∈ appDemo.models → m.wantsReload = true →
      m.id ∈ appDemoAfter.destroyed ∧
      ∃ ci k, m.initialCreateInfo = some ci ∧ appDemo.nextId ≤ k ∧
        (name, mkModel ci k) ∈ appDemoAfter.models) ∧
    (∀ aname a name m, (aname, a) ∈ appDemo.actors → (name, m) ∈ appDemo.models →
      m.wantsReload = true → a.model = m.id →
      (aname, a) ∈ appDemoAfter.actors ∧ a.model ∈ appDemoAfter.destroyed) :=
  model_reload_redirects_table_only appDemo appDemoAfter rfl

/-- C5 counterexample: a pipeline flagged for reload is reloaded by the
per-frame pass, and when the pass returns the pipeline's wantsReload flag is
still true — neither Pipeline::reload nor the coordinator clears it — so the
claim that the flag is false when reload returns fails, and the pipeline is
reloaded again on every subsequent frame. -/
theorem pipeline_reload_leaves_flag_set_counterexample :
    reloadPipelines shaderFSgood [pipelineDemo] 100 =
      (reloadDemoTrace, Except.ok ([{ pipelineDemo with handle := 100 }], 103)) ∧
    ({ pipelineDemo with handle := 100 } : Pipeline).wantsReload = true ∧
    ¬ (∀ ps n2, reloadPipelines shaderFSgood [pipelineDemo] 100 =
          (reloadDemoTrace, Except.ok (ps, n2)) → ∀ q ∈ ps, q.wantsReload = false) := by
  refine ⟨rfl, rfl, ?_⟩
  intro hcl
  have hq := hcl [{ pipelineDemo with handle := 100 }] 103 rfl
    { pipelineDemo with handle := 100 } (List.mem_singleton_self _)
  exact absurd hq (by decide)

/-- C5 amended: the flag-clearing behavior is asymmetric.  A Model reload
effectively clears wantsReload because the coordinator replaces the table entry
with a fresh instance whose flag starts false; Pipeline::reload never touches
the flag, so a reloaded pipeline still has wantsReload set when reload returns
and retries on every subsequent frame. -/
theorem reload_clears_flag_only_for_models (fs : ShaderFS) (p : Pipeline) (fresh : Nat)
    (tr : List VkEvent) (p2 : Pipeline) (n2 : Nat) (s s2 : AppState)
    (hrp : Pipeline.reload fs p fresh = (tr, Except.ok (p2, n2)))
    (hrm : coordinatorReloadModels s = some s2) :
    p2.wantsReload = p.wantsReload ∧
    (∀ name m, (name, m) ∈ s.models → m.wantsReload = true →
      ∃ ci k, m.initialCreateInfo = some ci ∧ (name, mkModel ci k) ∈ s2.models ∧
        (mkModel ci k).wantsReload = false) := by
  constructor
  · obtain ⟨ci, evs, hnew, hci, hc, hp2⟩ := reload_ok_shape fs p fresh tr p2 n2 hrp
    rw [hp2]
  · intro name m hmem hw
    obtain ⟨_, _, _, _, ht⟩ := coordinatorReloadModels_spec s s2 hrm
    obtain ⟨hd, ci, k, h1, h2, h3⟩ := ht name m hmem hw
    exact ⟨ci, k, h1, h3, rfl⟩

/-- C5 amended witness: the demo pipeline keeps its set flag across a successful
reload, while the demo model's replacement starts with a cleared flag. -/
theorem reload_clears_flag_only_for_models_witness :
    ({ pipelineDemo with handle := 100 } : Pipeline).wantsReload = pipelineDemo.wantsReload ∧
    (∀ name m, (name, m) ∈ appDemo.models → m.wantsReload = true →
      ∃ ci k, m.initialCreateInfo = some ci ∧ (name, mkModel ci k) ∈ appDemoAfter.models ∧
        (mkModel ci k).wantsReload = false) :=
  reload_clears_flag_only_for_models shaderFSgood pipelineDemo 100 reloadDemoTrace
    { pipelineDemo with handle := 100 } 103 appDemo appDemoAfter rfl rfl

/-- C9: a coordinator Model reload leaves the watcher registry unchanged — every
watched entry, in particular the one holding the old (now deleted) pointer as
owner, survives as is, and the replacement instance is never registered — so
later change callbacks can only name the stale owner, and the replacement's
wantsReload flag stays false across any sequence of later poll ticks. -/
theorem model_reload_stale_watcher_registry (s s2 : AppState)
    (hown : ∀ e ∈ s.watchFiles, ∀ o ∈ e.2.owners, o < s.nextId)
    (hrel : coordinatorReloadModels s = some s2) :
    s2.watchFiles = s.watchFiles ∧
    (∀ name m, (name, m) ∈ s.models → m.wantsReload = true →
      m.id ∈ s2.destroyed ∧
      (∀ path info, (path, info) ∈ s.watchFiles → m.id ∈ info.owners →
        (path, info) ∈ s2.watchFiles) ∧
      ∃ ci k, m.initialCreateInfo = some ci ∧
        (name, mkModel ci k) ∈ s2.models ∧ (mkModel ci k).wantsReload = false ∧
        modelIdAbsent s2 k ∧
        ∀ fss : List FS, (name, mkModel ci k) ∈ (watcherTicksApp fss s2).models) := by
  obtain ⟨hact, hpl, hwf, hn, ht⟩ := coordinatorReloadModels_spec s s2 hrel
  refine ⟨hwf, ?_⟩
  intro name m hmem hw
  obtain ⟨hd, ci, k, h1, h2, h3⟩ := ht name m hmem hw
  have habs : modelIdAbsent s2 k := by
    intro e he hk
    rw [hwf] at he
    have hlt : k < s.nextId := hown e he k hk
    omega
  refine ⟨hd, ?_, ci, k, h1, h3, rfl, habs, ?_⟩
  · intro path info hin _
    rw [hwf]
    exact hin
  · intro fss
    exact watcherTicksApp_preserve fss s2 name (mkModel ci k) h3 habs

/-- Control location of the watcher's background thread inside
FileWatcher::watch: about to test `while (active)`, inside the sleep, about to
run the poll body, or returned from the thread function. -/
inductive WatcherPhase where
  | checking
  | sleeping
  | polling
  | exited
deriving Repr, DecidableEq

/-- Joint state of a FileWatcher and the stop protocol between the render/main
thread and the background thread: the active flag (unsynchronized in the
source; modelled sequentially consistent), the thread's control location, the
registry, whether stop() has executed `active = false`, and whether its
thread.join() has returned. -/
structure WatcherSys where
  active : Bool
  phase : WatcherPhase
  files : WatchMap
  stopSignaled : Bool
  stopReturned : Bool
deriving Repr, DecidableEq

/-- Interleaving semantics of FileWatcher::watch and FileWatcher::stop,
labelled with the events a step emits.  The loop `while (active) { sleep;
poll-all-files }` yields the four thread steps (the flag is only tested at the
loop head: a poll in progress completes even after the flag clears); stop()
contributes the store of the termination flag and the join, which can complete
only once the thread function has returned. -/
inductive WStep : WatcherSys → List WatchEvent → WatcherSys → Prop where
  | checkTrue (s : WatcherSys) :
      s.phase = WatcherPhase.checking → s.active = true →
      WStep s [] { s with phase := WatcherPhase.sleeping }
  | checkFalse (s : WatcherSys) :
      s.phase = WatcherPhase.checking → s.active = false →
      WStep s [] { s with phase := WatcherPhase.exited }
  | wake (s : WatcherSys) :
      s.phase = WatcherPhase.sleeping →
      WStep s [] { s with phase := WatcherPhase.polling }
  | poll (s : WatcherSys) (fs : FS) :
      s.phase = WatcherPhase.polling →
      WStep s (watchTick fs s.files).2
        { s with phase := WatcherPhase.checking, files := (watchTick fs s.files).1 }
  | stopSignal (s : WatcherSys) :
      s.stopSignaled = false →
      WStep s [] { s with active := false, stopSignaled := true }
  | stopJoin (s : WatcherSys) :
      s.stopSignaled = true → s.stopReturned = false → s.phase = WatcherPhase.exited →
      WStep s [] { s with stopReturned := true }

/-- Reachability along interleaved steps, with the emitted events accumulated
in order. -/
inductive WReach : WatcherSys → List WatchEvent → WatcherSys → Prop where
  | refl (s : WatcherSys) : WReach s [] s
  | step {s : WatcherSys} {evs : List WatchEvent} {t : WatcherSys}
      {evs2 : List WatchEvent} {u : WatcherSys} :
      WReach s evs t → WStep t evs2 u → WReach s (evs ++ evs2) u

/-- Invariant of the stop protocol: a signaled stop has cleared the flag, and a
returned stop implies the signal happened and the thread has exited. -/
def WatcherInv (s : WatcherSys) : Prop :=
  (s.stopSignaled = true → s.active = false) ∧
  (s.stopReturned = true → s.stopSignaled = true ∧ s.phase = WatcherPhase.exited)

lemma wstep_preserves_inv {s : WatcherSys} {evs : List WatchEvent} {t : WatcherSys}
    (h : WStep s evs t) (hi : WatcherInv s) : WatcherInv t := by
  cases h with
  | checkTrue h1 h2 =>
    refine ⟨fun hsig => hi.1 hsig, ?_⟩
    intro hret
    have hf := (hi.2 hret).2
    rw [h1] at hf
    exact WatcherPhase.noConfusion hf
  | checkFalse h1 h2 =>
    exact ⟨fun hsig => hi.1 hsig, fun hret => ⟨(hi.2 hret).1, rfl⟩⟩
  | wake h1 =>
    refine ⟨fun hsig => hi.1 hsig, ?_⟩
    intro hret
    have hf := (hi.2 hret).2
    rw [h1] at hf
    exact WatcherPhase.noConfusion hf
  | poll fs h1 =>
    refine ⟨fun hsig => hi.1 hsig, ?_⟩
    intro hret
    have hf := (hi.2 hret).2
    rw [h1] at hf
    exact WatcherPhase.noConfusion hf
  | stopSignal h1 =>
    exact ⟨fun _ => rfl, fun hret => ⟨rfl, (hi.2 hret).2⟩⟩
  | stopJoin h1 h2 h3 =>
    exact ⟨fun hsig => hi.1 hsig, fun _ => ⟨h1, h3⟩⟩

lemma wreach_preserves_inv {s : WatcherSys} {evs : List WatchEvent} {t : WatcherSys}
    (h : WReach s evs t) (hi : WatcherInv s) : WatcherInv t := by
  induction h with
  | refl => exact hi
  | step h1 h2 ih => exact wstep_preserves_inv h2 ih

lemma wstep_from_exited {s : WatcherSys} {evs : List WatchEvent} {t : WatcherSys}
    (h : WStep s evs t) (he : s.phase = WatcherPhase.exited) :
    evs = [] ∧ t.phase = WatcherPhase.exited := by
  cases h with
  | checkTrue h1 h2 =>
    rw [he] at h1
    exact WatcherPhase.noConfusion h1
  | checkFalse h1 h2 =>
    rw [he] at h1
    exact WatcherPhase.noConfusion h1
  | wake h1 =>
    rw [he] at h1
    exact WatcherPhase.noConfusion h1
  | poll fs h1 =>
    rw [he] at h1
    exact WatcherPhase.noConfusion h1
  | stopSignal h1 => exact ⟨rfl, he⟩
  | stopJoin h1 h2 h3 => exact ⟨rfl, he⟩

lemma wreach_from_exited {s : WatcherSys} {evs : List WatchEvent} {t : WatcherSys}
    (h : WReach s evs t) (he : s.phase = WatcherPhase.exited) :
    evs = [] ∧ t.phase = WatcherPhase.exited := by
  induction h with
  | refl => exact ⟨rfl, he⟩
  | step h1 h2 ih =>
    obtain ⟨e1, p1⟩ := ih
    obtain ⟨e2, p2⟩ := wstep_from_exited h2 p1
    rw [e1, e2]
    exact ⟨rfl, p2⟩

lemma progress_to_exited (s : WatcherSys) (ha : s.active = false) :
    ∃ evs t, WReach s evs t ∧ t.phase = WatcherPhase.exited ∧
      t.stopSignaled = s.stopSignaled ∧ t.stopReturned = s.stopReturned := by
  rcases hp : s.phase with _ | _ | _ | _
  · exact ⟨[], { s with phase := WatcherPhase.exited },
      WReach.step (WReach.refl s) (WStep.checkFalse s hp ha), rfl, rfl, rfl⟩
  · refine ⟨_, _, WReach.step (WReach.step (WReach.step (WReach.refl s)
        (WStep.wake s hp))
        (WStep.poll { s with phase := WatcherPhase.polling } (fun _ => 0) rfl))
        (WStep.checkFalse _ rfl ha), rfl, rfl, rfl⟩
  · refine ⟨_, _, WReach.step (WReach.step (WReach.refl s)
        (WStep.poll s (fun _ => 0) hp))
        (WStep.checkFalse _ rfl ha), rfl, rfl, rfl⟩
  · exact ⟨[], s, WReach.refl s, hp, rfl, rfl⟩

/-- C8: clean shutdown, under a sequentially consistent interleaving model of
the two threads: in every run starting from a freshly started watcher, once
stop() has returned the background thread has observed the cleared flag and
left its poll loop, and no later step — in particular no poll tick, even one
observing new file modifications — emits any event, so no onFileChanged
invocation occurs after stop() returns; moreover whenever the flag is cleared
the thread reaches the exited phase, so the join that stop() blocks on can
complete. -/
theorem filewatcher_clean_shutdown (s0 : WatcherSys) (evs : List WatchEvent)
    (s1 : WatcherSys)
    (hinit : s0.phase = WatcherPhase.checking ∧ s0.stopSignaled = false ∧
      s0.stopReturned = false)
    (hreach : WReach s0 evs s1) :
    (s1.stopReturned = true →
      s1.phase = WatcherPhase.exited ∧ s1.active = false ∧
      ∀ evs2 s2, WReach s1 evs2 s2 → evs2 = []) ∧
    (s1.active = false →
      ∃ evs2 s2, WReach s1 evs2 s2 ∧ s2.phase = WatcherPhase.exited) := by
  have hinv0 : WatcherInv s0 := by
    constructor
    · intro hsig
      rw [hinit.2.1] at hsig
      exact Bool.noConfusion hsig
    · intro hret
      rw [hinit.2.2] at hret
      exact Bool.noConfusion hret
  have hinv1 := wreach_preserves_inv hreach hinv0
  constructor
  · intro hret
    obtain ⟨hsig, hex⟩ := hinv1.2 hret
    refine ⟨hex, hinv1.1 hsig, ?_⟩
    intro evs2 s2 hr2
    exact (wreach_from_exited hr2 hex).1
  · intro hact
    obtain ⟨evs2, t, hr, hex, _, _⟩ := progress_to_exited s1 hact
    exact ⟨evs2, t, hr, hex⟩

/-- A freshly started watcher with one registered file. -/
def watcherDemo : WatcherSys :=
  { active := true, phase := WatcherPhase.checking,
    files := [("m.vert", ⟨5, [10]⟩)], stopSignaled := false, stopReturned := false }

/-- The demo watcher after stop(): flag cleared, thread exited, join returned. -/
def watcherDemoStopped : WatcherSys :=
  { active := false, phase := WatcherPhase.exited,
    files := [("m.vert", ⟨5, [10]⟩)], stopSignaled := true, stopReturned := true }

/-- C8 witness: an explicit run — stop() clears the flag, the thread observes it
and exits, the join completes — after which no step emits events. -/
theorem filewatcher_clean_shutdown_witness :
    (watcherDemoStopped.stopReturned = true →
      watcherDemoStopped.phase = WatcherPhase.exited ∧ watcherDemoStopped.active = false ∧
      ∀ evs2 s2, WReach watcherDemoStopped evs2 s2 → evs2 = []) ∧
    (watcherDemoStopped.active = false →
      ∃ evs2 s2, WReach watcherDemoStopped evs2 s2 ∧ s2.phase = WatcherPhase.exited) :=
  filewatcher_clean_shutdown watcherDemo [] watcherDemoStopped
    ⟨rfl, rfl, rfl⟩
    (WReach.step (WReach.step (WReach.step (WReach.refl watcherDemo)
        (WStep.stopSignal watcherDemo rfl))
        (WStep.checkFalse _ rfl rfl))
      (WStep.stopJoin _ rfl rfl rfl))

/-- C9 witness: on the demo state the registry still names the deleted pointer 1
for the model's file, the fresh instance 2 is never registered, and its flag
stays false over later ticks. -/
theorem model_reload_stale_watcher_registry_witness :
    appDemoAfter.watchFiles = appDemo.watchFiles ∧
    (∀ name m, (name, m) ∈ appDemo.models → m.wantsReload = true →
      m.id ∈ appDemoAfter.destroyed ∧
      (∀ path info, (path, info) ∈ appDemo.watchFiles → m.id ∈ info.owners →
        (path, info) ∈ appDemoAfter.watchFiles) ∧
      ∃ ci k, m.initialCreateInfo = some ci ∧
        (name, mkModel ci k) ∈ appDemoAfter.models ∧ (mkModel ci k).wantsReload = false ∧
        modelIdAbsent appDemoAfter k ∧
        ∀ fss : List FS, (name, mkModel ci k) ∈ (watcherTicksApp fss appDemoAfter).models) :=
  model_reload_stale_watcher_registry appDemo appDemoAfter (by decide) rfl

end VulkanTemplate
